import Mathlib

/-!
Verification of the checklink crawler and content-classification pipeline
(`checklink.py`): a shallow embedding of the data model, the heuristic
content analyzer, language detection, goal extraction, the bounded
recursive crawler, and the per-link checker, together with theorems about
the claims of the specification.

External collaborators (the HTTP session, `urljoin`, the parsed HTML
document, and the optional external classification service) are modelled
as explicit function parameters; everything else is translated directly
from the source.
-/

namespace Checklink

/-- Model of Python `list.startswith`-style prefix test on character lists. -/
def listPrefixOf : List Char → List Char → Bool
  | [], _ => true
  | _ :: _, [] => false
  | a :: as, b :: bs => a == b && listPrefixOf as bs

/-- Model of the Python substring test `pat in l` on character lists. -/
def listSub : List Char → List Char → Bool
  | pat, [] => listPrefixOf pat []
  | pat, c :: t => listPrefixOf pat (c :: t) || listSub pat t

/-- Model of the Python substring test `needle in haystack` on strings. -/
def strContains (haystack needle : String) : Bool :=
  listSub needle.data haystack.data

/-- Specification-level substring relation: `needle` occurs contiguously in `hay`. -/
def SubStrP (needle hay : String) : Prop :=
  ∃ pre post, hay.data = pre ++ needle.data ++ post

/-- Model of Python `str.lower()` (character-wise lowering). -/
def pyLower (s : String) : String :=
  String.mk (s.data.map Char.toLower)

/-- Model of Python `str.upper()` (character-wise raising). -/
def pyUpper (s : String) : String :=
  String.mk (s.data.map Char.toUpper)

/-- Model of Python `str.strip()` with no arguments: drop leading and trailing
whitespace. -/
def pyStrip (s : String) : String :=
  String.mk (((s.data.dropWhile Char.isWhitespace).reverse.dropWhile
    Char.isWhitespace).reverse)

/-- Model of Python `sep.join(parts)`. -/
def pyJoin (sep : String) : List String → String
  | [] => ""
  | [x] => x
  | x :: y :: xs => x ++ sep ++ pyJoin sep (y :: xs)

/-- Split a character list at every character satisfying `p`, keeping empty
pieces (the split structure shared by `str.split` and `parse_qs`). -/
def splitOnPred (p : Char → Bool) : List Char → List (List Char)
  | [] => [[]]
  | c :: rest =>
    let r := splitOnPred p rest
    if p c then [] :: r
    else
      match r with
      | [] => [[c]]
      | h :: t => (c :: h) :: t

/-- Model of Python `str.split()` with no arguments: split on whitespace runs,
dropping empty pieces. -/
def pySplitWs (s : String) : List String :=
  ((splitOnPred Char.isWhitespace s.data).filter (fun w => w ≠ [])).map String.mk

/-- Model of the Python slice `s[:500]` used to bound the extracted goal. -/
def truncate500 (s : String) : String :=
  String.mk (s.data.take 500)

/-- Rest of the list after the first occurrence of character `c`, if any. -/
def dropUntilAfter (c : Char) : List Char → Option (List Char)
  | [] => none
  | x :: xs => if x = c then some xs else dropUntilAfter c xs

/-- Model of `urlparse(url).query`: the part after the first `?`, with the
fragment (everything from the first `#`) removed first. -/
def urlQuery (url : String) : String :=
  let woFrag := url.data.takeWhile (fun c => c != '#')
  match dropUntilAfter '?' woFrag with
  | some rest => String.mk rest
  | none => ""

/-- Fields of a query string, split on `&` as `parse_qs` does. -/
def splitOnAmp (l : List Char) : List (List Char) :=
  splitOnPred (fun c => c == '&') l

/-- One `key=value` field of a query string; fields without `=` or with an
empty value are dropped, as `parse_qs` does with its default
`keep_blank_values=False`.  Percent/plus decoding is not modelled. -/
def qsPair (field : List Char) : Option (String × String) :=
  match dropUntilAfter '=' field with
  | none => none
  | some v =>
    if v = [] then none
    else some (String.mk (field.takeWhile (fun c => c != '=')), String.mk v)

/-- Model of `parse_qs(qs)[key][0]` guarded by `key in parse_qs(qs)`: the first
value bound to `key`, if any. -/
def parse_qs_first (qs key : String) : Option String :=
  (((splitOnAmp qs.data).filterMap qsPair).find? (fun kv => kv.1 == key)).map (fun kv => kv.2)

/-- Rest of the list after the first occurrence of the pattern `pat`, if any. -/
def dropThroughSub (pat : List Char) : List Char → Option (List Char)
  | [] => none
  | c :: t => if listPrefixOf pat (c :: t) then some ((c :: t).drop pat.length)
              else dropThroughSub pat t

/-- Model of `urlparse(url).netloc` for the absolute `http(s)://` URLs the
crawler applies it to: the text between `://` and the next `/`, `?` or `#`. -/
def netloc (url : String) : String :=
  match dropThroughSub "://".data url.data with
  | none => ""
  | some rest => String.mk (rest.takeWhile (fun c => c != '/' && c != '?' && c != '#'))

/-- Model of `full_url.startswith(('http://', 'https://'))`. -/
def startsHttp (u : String) : Bool :=
  listPrefixOf "http://".data u.data || listPrefixOf "https://".data u.data

/-- The classification result dictionary returned by `analyze_content` /
`_fallback_analysis`: relevance score, suspicion flag, reasons, summary. -/
structure Verdict where
  relevance_score : Nat
  is_suspicious : Bool
  reasons : List String
  summary : String
deriving DecidableEq, Repr

/-- The `LinkResult` dataclass storing link analysis results. -/
structure LinkResult where
  title : String
  url : String
  status : String
  reason : String
  content_snippet : String := ""
  language : String := "unknown"
deriving DecidableEq, Repr

/-- The `LanguageVersion` dataclass: language code, display name, entry URL. -/
structure LanguageVersion where
  code : String
  name : String
  url : String
deriving DecidableEq, Repr

/-- The fixed scam keyword list of `_fallback_analysis`. -/
def scam_keywords : List String :=
  ["get rich quick", "guaranteed money", "click here now",
   "limited time offer", "act now", "free money",
   "congratulations you won", "urgent action required",
   "suspicious activity", "verify account immediately"]

/-- `ContentAnalyzer._fallback_analysis`: keyword-based suspicion and a
goal-word-count relevance score clamped by `min(10, max(1, n * 2))`. -/
def fallback_analysis (content main_website_goal : String) : Verdict :=
  let content_lower := pyLower content
  let suspicious := scam_keywords.any (fun keyword => strContains content_lower keyword)
  let goal_words := pySplitWs (pyLower main_website_goal)
  let raw := (goal_words.filter (fun word => strContains content_lower word)).length
  let relevance_score := min 10 (max 1 (raw * 2))
  { relevance_score := relevance_score,
    is_suspicious := suspicious,
    reasons := if suspicious then ["Keyword-based analysis"] else [],
    summary := "Relevance: " ++ toString relevance_score ++ "/10, Suspicious: "
      ++ (if suspicious then "True" else "False") }

/-- `ContentAnalyzer.analyze_content`.  The external model call is modelled by
`api`: `some v` stands for a configured API key together with a response that
parses to the dictionary `v`, which the source returns unvalidated
(`return eval(result)`); `none` stands for a missing API key or any exception
during delegation, both of which fall back to `_fallback_analysis`. -/
def analyze_content (api : Option Verdict) (content main_website_goal : String) : Verdict :=
  match api with
  | some v => v
  | none => fallback_analysis content main_website_goal

/-- An anchor element as the program queries it: its `href`, its stripped
visible text (`get_text(strip=True)`), and its `title` attribute
(`get('title', '')`). -/
structure Anchor where
  href : String
  text : String
  titleAttr : String
deriving DecidableEq, Repr

/-- An element as `extract_main_goal` queries it: tag name, `name` attribute,
raw `class` attribute (the space-separated class string), `content`
attribute, and stripped text. -/
structure Element where
  tag : String
  nameAttr : Option String
  classAttr : Option String
  contentAttr : Option String
  text : String
deriving DecidableEq, Repr

/-- A parsed page (the BeautifulSoup object), modelled by the four queries
the program performs on it: the element list in document order (for
`find_all` / `find`), CSS-selector queries (for `detect_languages`), the
anchor list `find_all('a', href=True)` (for the crawler), and the plain text
`get_text()` after script/style removal (for `check_link`). -/
structure Doc where
  elements : List Element
  selectQ : String → List Anchor
  anchors : List Anchor
  text : String

/-- Outcome of one `session.get`: a response with status code, reason phrase
and parsed body, or one of the three transport failures `check_link`
distinguishes. -/
inductive FetchOutcome where
  | success (status : Nat) (reasonPhrase : String) (doc : Doc)
  | timeout
  | connectionError
  | otherError (msg : String)

/-- The ordered CSS selector list `language_selectors` of `detect_languages`. -/
def language_selectors : List String :=
  ["a[href*=\"lang=\"]",
   ".language-switcher a",
   ".lang-switcher a",
   ".qtranxs_language_chooser a",
   ".language-selector a",
   "[class*=\"language\"] a[href*=\"lang\"]"]

/-- The body of the anchor loop of `detect_languages`: extract a `lang` query
parameter from the anchor's `href`, build the display name from visible text,
`title` attribute or the code, resolve the URL with `urljoin`, and append
unless the code is already present. -/
def langFromAnchor (base_url : String) (join : String → String → String)
    (acc : List LanguageVersion) (a : Anchor) : List LanguageVersion :=
  if strContains a.href "lang=" then
    if urlQuery a.href ≠ "" then
      match parse_qs_first (urlQuery a.href) "lang" with
      | some lang_code =>
        if acc.any (fun l => l.code == lang_code) then acc
        else
          acc ++ [{ code := lang_code,
                    name := if a.text ≠ "" then a.text
                            else if a.titleAttr ≠ "" then a.titleAttr
                            else lang_code,
                    url := join base_url a.href }]
      | none => acc
    else acc
  else acc

/-- `MultiLanguageLinkChecker.detect_languages`: try the selectors in order
and process the first one with any matches; fall back to a `lang` query
parameter of the base URL; finally fall back to a single default variant. -/
def detect_languages (selectQ : String → List Anchor) (base_url : String)
    (join : String → String → String) : List LanguageVersion :=
  let fromSelectors :=
    match (language_selectors.map selectQ).find? (fun links => links ≠ []) with
    | some lang_links => lang_links.foldl (langFromAnchor base_url join) []
    | none => []
  let withUrlLang :=
    if fromSelectors = [] then
      if urlQuery base_url ≠ "" ∧ strContains (urlQuery base_url) "lang=" then
        match parse_qs_first (urlQuery base_url) "lang" with
        | some current_lang => [{ code := current_lang, name := pyUpper current_lang,
                                  url := base_url }]
        | none => []
      else []
    else fromSelectors
  if withUrlLang = [] then
    [{ code := "default", name := "Default", url := base_url }]
  else withUrlLang

/-- The `name` attribute filter of the `find_all` call in `extract_main_goal`:
the attribute must be present with value `description` or `keywords`. -/
def goalNameMatch (e : Element) : Bool :=
  match e.nameAttr with
  | some v => v == "description" || v == "keywords"
  | none => false

/-- The `class` regex filter `(about|mission|purpose)` (case-insensitive,
matched with `search`) of the `find_all` call in `extract_main_goal`: the
attribute must be present and contain one of the three words. -/
def goalClassMatch (e : Element) : Bool :=
  match e.classAttr with
  | some c =>
    strContains (pyLower c) "about" || strContains (pyLower c) "mission"
      || strContains (pyLower c) "purpose"
  | none => false

/-- The combined `find_all(['h1','h2','meta','p'], attrs={'name': ..,
'class': ..})` filter: the tag must be one of the four and every attribute
filter must match. -/
def goalElementMatch (e : Element) : Bool :=
  (e.tag == "h1" || e.tag == "h2" || e.tag == "meta" || e.tag == "p")
    && goalNameMatch e && goalClassMatch e

/-- The per-element text contribution inside `extract_main_goal`'s loop:
`content` attribute for `meta` elements, stripped text otherwise, each
followed by a space. -/
def elementGoalText (e : Element) : String :=
  if e.tag == "meta" then e.contentAttr.getD "" ++ " " else e.text ++ " "

/-- `MultiLanguageLinkChecker.extract_main_goal`: concatenate the texts of
all elements passing the combined filter; if that is blank, fall back to
page title plus first paragraph; strip and truncate to 500 characters. -/
def extract_main_goal (doc : Doc) : String :=
  let goal_elements := doc.elements.filter goalElementMatch
  let goal_text := String.join (goal_elements.map elementGoalText)
  let goal_text :=
    if pyStrip goal_text = "" then
      goal_text
        ++ (match doc.elements.find? (fun e => e.tag == "title") with
            | some t => t.text ++ " "
            | none => "")
        ++ (match doc.elements.find? (fun e => e.tag == "p") with
            | some p => p.text
            | none => "")
    else goal_text
  truncate500 (pyStrip goal_text)

/-- The anchor title expression of the crawler's link loop:
`link.get_text(strip=True) or link.get('title', '') or href`. -/
def pyAnchorTitle (a : Anchor) : String :=
  if a.text ≠ "" then a.text else if a.titleAttr ≠ "" then a.titleAttr else a.href

/-- The session-wide constants of `MultiLanguageLinkChecker` together with its
external collaborators: the HTTP session (`env`), `urljoin` (`join`) and the
external classification service (`api`, as in `analyze_content`, here a
function of page text and goal). -/
structure CrawlConfig where
  env : String → FetchOutcome
  join : String → String → String
  api : String → String → Option Verdict
  max_depth : Nat
  base_domain : String
  base_url : String

/-- The mutable instance state the crawler touches: the visited set, the
stored goal and the detected language list, plus `fetched`, the trace of URLs
passed to `session.get` by `get_all_links` (instrumentation for the
fetched-at-most-once claims). -/
structure CrawlState where
  visited : List String
  fetched : List String
  main_website_goal : String
  detected_languages : List LanguageVersion
deriving DecidableEq, Repr

/-- The anchor loop of `get_all_links`: skip non-HTTP resolutions, append the
edge, and recurse (through `recur`) into same-domain targets when below the
depth bound. -/
def crawl_loop (cfg : CrawlConfig)
    (recur : CrawlState → String → CrawlState × List (String × String))
    (url : String) (depth : Nat) :
    List Anchor → CrawlState → CrawlState × List (String × String)
  | [], st => (st, [])
  | a :: rest, st =>
    let full_url := cfg.join url a.href
    if startsHttp full_url then
      let r1 := if depth < cfg.max_depth ∧ netloc full_url = cfg.base_domain
                then recur st full_url
                else (st, [])
      let r2 := crawl_loop cfg recur url depth rest r1.fst
      (r2.fst, (pyAnchorTitle a, full_url) :: (r1.snd ++ r2.snd))
    else
      crawl_loop cfg recur url depth rest st

/-- `MultiLanguageLinkChecker.get_all_links`, with recursion fuelled by
`max_depth + 1 - depth` (see `get_all_links` and `get_all_links_eq`): guard on
depth and the visited set before any network access, mark visited, fetch
(`raise_for_status` turns 4xx/5xx into a swallowed exception), run goal
extraction and language detection at depth 0, then walk the anchors. -/
def get_all_links_fuel (cfg : CrawlConfig) :
    Nat → CrawlState → String → Nat → CrawlState × List (String × String)
  | 0, st, _, _ => (st, [])
  | fuel + 1, st, url, depth =>
    if depth > cfg.max_depth ∨ url ∈ st.visited then (st, [])
    else
      let stv := { st with visited := url :: st.visited, fetched := st.fetched ++ [url] }
      match cfg.env url with
      | FetchOutcome.success status _ doc =>
        if 400 ≤ status ∧ status < 600 then (stv, [])
        else
          let st0 :=
            if depth = 0 then
              { stv with
                  main_website_goal := extract_main_goal doc,
                  detected_languages := detect_languages doc.selectQ cfg.base_url cfg.join }
            else stv
          crawl_loop cfg (fun st' u => get_all_links_fuel cfg fuel st' u (depth + 1))
            url depth doc.anchors st0
      | _ => (stv, [])

/-- `get_all_links cfg st url depth`: the crawler entry point.  The fuel
`cfg.max_depth + 1 - depth` is exhausted exactly when `depth > cfg.max_depth`,
where the source returns `[]` anyway; `get_all_links_eq` below proves the
resulting recursion equation in the shape of the source. -/
def get_all_links (cfg : CrawlConfig) (st : CrawlState) (url : String) (depth : Nat) :
    CrawlState × List (String × String) :=
  get_all_links_fuel cfg (cfg.max_depth + 1 - depth) st url depth

/-- The `issues` list built by `check_link` from a classification verdict. -/
def link_issues (v : Verdict) : List String :=
  (if v.is_suspicious then ["SUSPICIOUS: " ++ pyJoin ", " v.reasons] else [])
    ++ (if v.relevance_score < 4 then
          ["LOW RELEVANCE: Score " ++ toString v.relevance_score ++ "/10"]
        else [])

/-- The verdict `check_link` computes for a successfully fetched page: the
analyzer applied to the page's extracted text and the stored goal. -/
def page_verdict (api : String → String → Option Verdict) (main_website_goal : String)
    (doc : Doc) : Verdict :=
  analyze_content (api doc.text main_website_goal) doc.text main_website_goal

/-- `MultiLanguageLinkChecker.check_link`: transport failures map to TIMEOUT /
CONNECTION_ERROR / ERROR results, HTTP status ≥ 400 to BROKEN, and otherwise
the page text is classified and a FLAGGED result is returned exactly when the
issues list is non-empty. -/
def check_link (env : String → FetchOutcome) (api : String → String → Option Verdict)
    (main_website_goal title url language : String) : Option LinkResult :=
  match env url with
  | FetchOutcome.success status reasonPhrase doc =>
    if 400 ≤ status then
      some { title := title, url := url, status := "BROKEN",
             reason := "HTTP " ++ toString status ++ " - " ++ reasonPhrase,
             language := language }
    else
      let analysis := page_verdict api main_website_goal doc
      if link_issues analysis = [] then none
      else
        some { title := title, url := url, status := "FLAGGED",
               reason := pyJoin "; " (link_issues analysis),
               content_snippet := analysis.summary, language := language }
  | FetchOutcome.timeout =>
    some { title := title, url := url, status := "TIMEOUT", reason := "Request timeout",
           language := language }
  | FetchOutcome.connectionError =>
    some { title := title, url := url, status := "CONNECTION_ERROR",
           reason := "Connection failed", language := language }
  | FetchOutcome.otherError msg =>
    some { title := title, url := url, status := "ERROR", reason := msg,
           language := language }

/-- The fresh instance state of `MultiLanguageLinkChecker.__init__`. -/
def initialState : CrawlState :=
  { visited := [], fetched := [], main_website_goal := "", detected_languages := [] }

/-- `MultiLanguageLinkChecker.analyze_language_version`: clear the visited
set, crawl the variant's entry URL, then check every discovered edge with the
currently stored goal, keeping only the non-null results. -/
def analyze_language_version (cfg : CrawlConfig) (st : CrawlState)
    (language : LanguageVersion) : CrawlState × List LinkResult :=
  let r := get_all_links cfg { st with visited := [] } language.url 0
  (r.fst,
   r.snd.filterMap (fun e =>
     check_link cfg.env cfg.api r.fst.main_website_goal e.1 e.2 language.code))

/-- `MultiLanguageLinkChecker.analyze_all_languages`: detect languages and
extract the goal from the base URL (transport failure falls back to a single
default variant), then analyze each detected variant in order, collecting the
results per language code. -/
def analyze_all_languages (cfg : CrawlConfig) : CrawlState × List (String × List LinkResult) :=
  let st1 :=
    match cfg.env cfg.base_url with
    | FetchOutcome.success _ _ doc =>
      { initialState with
          detected_languages := detect_languages doc.selectQ cfg.base_url cfg.join,
          main_website_goal := extract_main_goal doc }
    | _ =>
      { initialState with
          detected_languages := [{ code := "default", name := "Default", url := cfg.base_url }] }
  st1.detected_languages.foldl
    (fun acc language =>
      let r := analyze_language_version cfg acc.1 language
      (r.fst, acc.2 ++ [(language.code, r.snd)]))
    (st1, [])

/-- Concrete page for a cyclic two-page site: `http://s/a` links to `http://s/b`. -/
def docCycA : Doc :=
  { elements := [], selectQ := fun _ => [],
    anchors := [{ href := "http://s/b", text := "B", titleAttr := "" }], text := "" }

/-- Concrete page closing the cycle: `http://s/b` links back to `http://s/a` and
out to the cross-domain `http://other/x`. -/
def docCycB : Doc :=
  { elements := [], selectQ := fun _ => [],
    anchors := [{ href := "http://s/a", text := "A", titleAttr := "" },
                { href := "http://other/x", text := "X", titleAttr := "" }],
    text := "" }

/-- Concrete crawl session over the cyclic two-page site. -/
def cfgCyc : CrawlConfig :=
  { env := fun url =>
      if url = "http://s/a" then FetchOutcome.success 200 "OK" docCycA
      else if url = "http://s/b" then FetchOutcome.success 200 "OK" docCycB
      else FetchOutcome.connectionError,
    join := fun _ href => href, api := fun _ _ => none,
    max_depth := 5, base_domain := "s", base_url := "http://s/a" }

/-- Concrete leaf page whose text matches the goal of its own language variant. -/
def docPageVar : Doc :=
  { elements := [], selectQ := fun _ => [], anchors := [], text := "beta beta" }

/-- Concrete entry page of the `pt` variant: its title (and hence its extracted
goal) is `beta`, and it links to `http://s/page`. -/
def docEntryVar : Doc :=
  { elements := [{ tag := "title", nameAttr := none, classAttr := none,
                   contentAttr := none, text := "beta" }],
    selectQ := fun _ => [],
    anchors := [{ href := "http://s/page", text := "L", titleAttr := "" }], text := "" }

/-- Concrete base homepage: its title (and hence its extracted goal) is `alpha`,
and its language switcher advertises the `pt` variant. -/
def docBaseVar : Doc :=
  { elements := [{ tag := "title", nameAttr := none, classAttr := none,
                   contentAttr := none, text := "alpha" }],
    selectQ := fun sel =>
      if sel = "a[href*=\"lang=\"]" then
        [{ href := "http://s/?lang=pt", text := "PT", titleAttr := "" }]
      else [],
    anchors := [], text := "" }

/-- Concrete session whose base homepage goal (`alpha`) differs from the goal of
the detected `pt` variant's entry page (`beta`). -/
def cfgVar : CrawlConfig :=
  { env := fun url =>
      if url = "http://s/" then FetchOutcome.success 200 "OK" docBaseVar
      else if url = "http://s/?lang=pt" then FetchOutcome.success 200 "OK" docEntryVar
      else if url = "http://s/page" then FetchOutcome.success 200 "OK" docPageVar
      else FetchOutcome.connectionError,
    join := fun _ href => href, api := fun _ _ => none,
    max_depth := 0, base_domain := "s", base_url := "http://s/" }

/-- Concrete page with text unrelated to any goal. -/
def docPlain : Doc :=
  { elements := [], selectQ := fun _ => [], anchors := [], text := "nothing here" }

/-- Concrete fetch environment in which every URL answers 200 with `docPlain`. -/
def envPlain : String → FetchOutcome :=
  fun _ => FetchOutcome.success 200 "OK" docPlain

/-- Concrete fetch environment in which every URL answers 404. -/
def env404 : String → FetchOutcome :=
  fun _ => FetchOutcome.success 404 "Not Found" docPlain

/-- Concrete homepage element: a plain `<meta name="description">` with
non-empty content and no `class` attribute. -/
def exMetaDesc : Element :=
  { tag := "meta", nameAttr := some "description", classAttr := none,
    contentAttr := some "All about cooking recipes", text := "" }

/-- Concrete homepage holding `exMetaDesc`, a title and a first paragraph. -/
def exDocMeta : Doc :=
  { elements := [exMetaDesc,
                 { tag := "title", nameAttr := none, classAttr := none,
                   contentAttr := none, text := "Cooking Site" },
                 { tag := "p", nameAttr := none, classAttr := none,
                   contentAttr := none, text := "Welcome to our kitchen" }],
    selectQ := fun _ => [], anchors := [], text := "" }

/-- Concrete out-of-range verdict as an external classification response. -/
def exApiVerdict : Verdict :=
  { relevance_score := 0, is_suspicious := false, reasons := [], summary := "external" }

/-- The title-plus-first-paragraph fallback text of `extract_main_goal`. -/
def fallbackGoalText (d : Doc) : String :=
  (match d.elements.find? (fun e => e.tag == "title") with
   | some t => t.text ++ " "
   | none => "")
  ++ (match d.elements.find? (fun e => e.tag == "p") with
      | some p => p.text
      | none => "")

theorem listPrefixOf_iff (p l : List Char) :
    listPrefixOf p l = true ↔ ∃ t, l = p ++ t := by
  induction p generalizing l with
  | nil => simp [listPrefixOf]
  | cons a as ih =>
    cases l with
    | nil => simp [listPrefixOf]
    | cons b bs =>
      simp only [listPrefixOf, Bool.and_eq_true, beq_iff_eq, ih, List.cons_append,
        List.cons.injEq]
      constructor
      · rintro ⟨hab, t, ht⟩
        exact ⟨t, hab.symm, ht⟩
      · rintro ⟨t, hab, ht⟩
        exact ⟨hab.symm, t, ht⟩

theorem listSub_iff (p l : List Char) :
    listSub p l = true ↔ ∃ pre post, l = pre ++ p ++ post := by
  induction l with
  | nil =>
    cases p with
    | nil => simp [listSub, listPrefixOf]
    | cons a as => simp [listSub, listPrefixOf]
  | cons c t ih =>
    simp only [listSub, Bool.or_eq_true, listPrefixOf_iff, ih]
    constructor
    · rintro (⟨post, hpost⟩ | ⟨pre, post, h⟩)
      · exact ⟨[], post, by simpa using hpost⟩
      · exact ⟨c :: pre, post, by simp [h]⟩
    · rintro ⟨pre, post, h⟩
      cases pre with
      | nil => exact Or.inl ⟨post, by simpa using h⟩
      | cons c' pre' =>
        simp only [List.cons_append, List.cons.injEq] at h
        exact Or.inr ⟨pre', post, h.2⟩

theorem strContains_iff (hay needle : String) :
    strContains hay needle = true ↔ SubStrP needle hay := by
  simpa [strContains, SubStrP] using listSub_iff needle.data hay.data

theorem string_data_append (a b : String) : (a ++ b).data = a.data ++ b.data := rfl

theorem link_issues_eq_nil_iff (v : Verdict) :
    link_issues v = [] ↔ v.is_suspicious = false ∧ 4 ≤ v.relevance_score := by
  cases h : v.is_suspicious <;> by_cases h2 : v.relevance_score < 4 <;>
    simp [link_issues, h, h2] <;> all_goals omega

theorem truncate500_length (s : String) : (truncate500 s).length ≤ 500 := by
  show (s.data.take 500).length ≤ 500
  simp [List.length_take]

theorem get_all_links_eq (cfg : CrawlConfig) (st : CrawlState) (url : String) (depth : Nat) :
    get_all_links cfg st url depth =
      if depth > cfg.max_depth ∨ url ∈ st.visited then (st, [])
      else
        let stv := { st with visited := url :: st.visited, fetched := st.fetched ++ [url] }
        match cfg.env url with
        | FetchOutcome.success status _ doc =>
          if 400 ≤ status ∧ status < 600 then (stv, [])
          else
            let st0 :=
              if depth = 0 then
                { stv with
                    main_website_goal := extract_main_goal doc,
                    detected_languages := detect_languages doc.selectQ cfg.base_url cfg.join }
              else stv
            crawl_loop cfg (fun st' u => get_all_links cfg st' u (depth + 1))
              url depth doc.anchors st0
        | _ => (stv, []) := by
  unfold get_all_links
  rcases h : cfg.max_depth + 1 - depth with _ | f
  · have hd : depth > cfg.max_depth := by omega
    simp [get_all_links_fuel, hd]
  · have hrec : (fun st' u => get_all_links_fuel cfg f st' u (depth + 1))
        = (fun st' u => get_all_links_fuel cfg (cfg.max_depth + 1 - (depth + 1)) st' u (depth + 1)) := by
      funext st' u
      congr 1
      omega
    simp only [get_all_links_fuel]
    rw [hrec]

theorem crawl_loop_state (cfg : CrawlConfig)
    (recur : CrawlState → String → CrawlState × List (String × String))
    (url : String) (depth : Nat)
    (hmono : ∀ st u, ∀ x ∈ st.visited, x ∈ (recur st u).fst.visited)
    (hpre : ∀ st u, st.fetched.Nodup → (∀ x ∈ st.fetched, x ∈ st.visited) →
      (recur st u).fst.fetched.Nodup
      ∧ ∀ x ∈ (recur st u).fst.fetched, x ∈ (recur st u).fst.visited)
    (hdom : ∀ st u, netloc u = cfg.base_domain →
      ∀ x ∈ (recur st u).fst.fetched, x ∈ st.fetched ∨ netloc x = cfg.base_domain)
    (hgoal : ∀ st u, (recur st u).fst.main_website_goal = st.main_website_goal
      ∧ (recur st u).fst.detected_languages = st.detected_languages) :
    ∀ (anchors : List Anchor) (st : CrawlState),
      (∀ x ∈ st.visited, x ∈ (crawl_loop cfg recur url depth anchors st).fst.visited)
      ∧ (st.fetched.Nodup → (∀ x ∈ st.fetched, x ∈ st.visited) →
          (crawl_loop cfg recur url depth anchors st).fst.fetched.Nodup
          ∧ ∀ x ∈ (crawl_loop cfg recur url depth anchors st).fst.fetched,
              x ∈ (crawl_loop cfg recur url depth anchors st).fst.visited)
      ∧ (∀ x ∈ (crawl_loop cfg recur url depth anchors st).fst.fetched,
          x ∈ st.fetched ∨ netloc x = cfg.base_domain)
      ∧ (crawl_loop cfg recur url depth anchors st).fst.main_website_goal = st.main_website_goal
      ∧ (crawl_loop cfg recur url depth anchors st).fst.detected_languages = st.detected_languages := by
  intro anchors
  induction anchors with
  | nil =>
    intro st
    exact ⟨fun x hx => hx, fun h1 h2 => ⟨h1, h2⟩, fun x hx => Or.inl hx, rfl, rfl⟩
  | cons a rest ih =>
    intro st
    by_cases hh : startsHttp (cfg.join url a.href) = true
    · by_cases hc : depth < cfg.max_depth ∧ netloc (cfg.join url a.href) = cfg.base_domain
      · have hstep : crawl_loop cfg recur url depth (a :: rest) st
            = (let r1 := recur st (cfg.join url a.href)
               let r2 := crawl_loop cfg recur url depth rest r1.fst
               (r2.fst, (pyAnchorTitle a, cfg.join url a.href) :: (r1.snd ++ r2.snd))) := by
          simp [crawl_loop, hh, hc]
        rw [hstep]
        obtain ⟨ihm, ihp, ihd, ihg1, ihg2⟩ := ih (recur st (cfg.join url a.href)).fst
        refine ⟨?_, ?_, ?_, ?_, ?_⟩
        · intro x hx
          exact ihm x (hmono st _ x hx)
        · intro hnd hsub
          obtain ⟨hnd', hsub'⟩ := hpre st _ hnd hsub
          exact ihp hnd' hsub'
        · intro x hx
          rcases ihd x hx with h1 | h2
          · exact hdom st _ hc.2 x h1
          · exact Or.inr h2
        · rw [ihg1, (hgoal st _).1]
        · rw [ihg2, (hgoal st _).2]
      · have hstep : crawl_loop cfg recur url depth (a :: rest) st
            = (let r2 := crawl_loop cfg recur url depth rest st
               (r2.fst, (pyAnchorTitle a, cfg.join url a.href) :: ([] ++ r2.snd))) := by
          simp [crawl_loop, hh, hc]
        rw [hstep]
        exact ih st
    · have hstep : crawl_loop cfg recur url depth (a :: rest) st
          = crawl_loop cfg recur url depth rest st := by
        simp [crawl_loop, hh]
      rw [hstep]
      exact ih st

theorem get_fuel_state (cfg : CrawlConfig) :
    ∀ (fuel : Nat) (st : CrawlState) (url : String) (depth : Nat),
      (∀ x ∈ st.visited, x ∈ (get_all_links_fuel cfg fuel st url depth).fst.visited)
      ∧ (st.fetched.Nodup → (∀ x ∈ st.fetched, x ∈ st.visited) →
          (get_all_links_fuel cfg fuel st url depth).fst.fetched.Nodup
          ∧ ∀ x ∈ (get_all_links_fuel cfg fuel st url depth).fst.fetched,
              x ∈ (get_all_links_fuel cfg fuel st url depth).fst.visited)
      ∧ (∀ x ∈ (get_all_links_fuel cfg fuel st url depth).fst.fetched,
          x ∈ st.fetched ∨ x = url ∨ netloc x = cfg.base_domain)
      ∧ (1 ≤ depth →
          (get_all_links_fuel cfg fuel st url depth).fst.main_website_goal
            = st.main_website_goal
          ∧ (get_all_links_fuel cfg fuel st url depth).fst.detected_languages
            = st.detected_languages) := by
  intro fuel
  induction fuel with
  | zero =>
    intro st url depth
    exact ⟨fun x hx => hx, fun h1 h2 => ⟨h1, h2⟩, fun x hx => Or.inl hx,
      fun _ => ⟨rfl, rfl⟩⟩
  | succ f ih =>
    intro st url depth
    by_cases hg : depth > cfg.max_depth ∨ url ∈ st.visited
    · have hres : get_all_links_fuel cfg (f + 1) st url depth = (st, []) := by
        simp [get_all_links_fuel, hg]
      rw [hres]
      exact ⟨fun x hx => hx, fun h1 h2 => ⟨h1, h2⟩, fun x hx => Or.inl hx,
        fun _ => ⟨rfl, rfl⟩⟩
    · push_neg at hg
      have hnotv : url ∉ st.visited := hg.2
      have hstv :
          ∀ (res : CrawlState × List (String × String)),
            res.fst.visited = url :: st.visited → res.fst.fetched = st.fetched ++ [url] →
            res.fst.main_website_goal = st.main_website_goal →
            res.fst.detected_languages = st.detected_languages →
            (∀ x ∈ st.visited, x ∈ res.fst.visited)
            ∧ (st.fetched.Nodup → (∀ x ∈ st.fetched, x ∈ st.visited) →
                res.fst.fetched.Nodup ∧ ∀ x ∈ res.fst.fetched, x ∈ res.fst.visited)
            ∧ (∀ x ∈ res.fst.fetched,
                x ∈ st.fetched ∨ x = url ∨ netloc x = cfg.base_domain)
            ∧ (1 ≤ depth →
                res.fst.main_website_goal = st.main_website_goal
                ∧ res.fst.detected_languages = st.detected_languages) := by
        intro res hv hf hgl hdl
        refine ⟨?_, ?_, ?_, fun _ => ⟨hgl, hdl⟩⟩
        · intro x hx
          rw [hv]
          exact List.mem_cons_of_mem _ hx
        · intro hnd hsub
          constructor
          · rw [hf, List.nodup_append]
            refine ⟨hnd, List.nodup_singleton url, ?_⟩
            intro x hx hx1
            rcases List.mem_singleton.mp hx1 with rfl
            exact hnotv (hsub x hx)
          · intro x hx
            rw [hf] at hx
            rw [hv]
            rcases List.mem_append.mp hx with h1 | h1
            · exact List.mem_cons_of_mem _ (hsub x h1)
            · rcases List.mem_singleton.mp h1 with rfl
              exact List.mem_cons_self _ _
        · intro x hx
          rw [hf] at hx
          rcases List.mem_append.mp hx with h1 | h1
          · exact Or.inl h1
          · exact Or.inr (Or.inl (List.mem_singleton.mp h1))
      have hloopcase :
          ∀ (doc : Doc) (st0 : CrawlState),
            st0.visited = url :: st.visited → st0.fetched = st.fetched ++ [url] →
            (∀ x ∈ st.visited,
              x ∈ (crawl_loop cfg (fun st' u => get_all_links_fuel cfg f st' u (depth + 1))
                    url depth doc.anchors st0).fst.visited)
            ∧ (st.fetched.Nodup → (∀ x ∈ st.fetched, x ∈ st.visited) →
                (crawl_loop cfg (fun st' u => get_all_links_fuel cfg f st' u (depth + 1))
                  url depth doc.anchors st0).fst.fetched.Nodup
                ∧ ∀ x ∈ (crawl_loop cfg (fun st' u => get_all_links_fuel cfg f st' u (depth + 1))
                      url depth doc.anchors st0).fst.fetched,
                    x ∈ (crawl_loop cfg (fun st' u => get_all_links_fuel cfg f st' u (depth + 1))
                      url depth doc.anchors st0).fst.visited)
            ∧ (∀ x ∈ (crawl_loop cfg (fun st' u => get_all_links_fuel cfg f st' u (depth + 1))
                  url depth doc.anchors st0).fst.fetched,
                x ∈ st.fetched ∨ x = url ∨ netloc x = cfg.base_domain)
            ∧ ((crawl_loop cfg (fun st' u => get_all_links_fuel cfg f st' u (depth + 1))
                  url depth doc.anchors st0).fst.main_website_goal = st0.main_website_goal
               ∧ (crawl_loop cfg (fun st' u => get_all_links_fuel cfg f st' u (depth + 1))
                  url depth doc.anchors st0).fst.detected_languages
                    = st0.detected_languages) := by
        intro doc st0 hv0 hf0
        have hloop := crawl_loop_state cfg
          (fun st' u => get_all_links_fuel cfg f st' u (depth + 1)) url depth
          (fun st' u => (ih st' u (depth + 1)).1)
          (fun st' u => (ih st' u (depth + 1)).2.1)
          (fun st' u hu x hx => by
            rcases (ih st' u (depth + 1)).2.2.1 x hx with h1 | h1 | h1
            · exact Or.inl h1
            · rw [h1]; exact Or.inr hu
            · exact Or.inr h1)
          (fun st' u => (ih st' u (depth + 1)).2.2.2 (by omega))
          doc.anchors st0
        obtain ⟨lm, lp, ld, lg1, lg2⟩ := hloop
        refine ⟨?_, ?_, ?_, lg1, lg2⟩
        · intro x hx
          exact lm x (by rw [hv0]; exact List.mem_cons_of_mem _ hx)
        · intro hnd hsub
          refine lp ?_ ?_
          · rw [hf0, List.nodup_append]
            refine ⟨hnd, List.nodup_singleton url, ?_⟩
            intro x hx hx1
            rcases List.mem_singleton.mp hx1 with rfl
            exact hnotv (hsub x hx)
          · intro x hx
            rw [hf0] at hx
            rw [hv0]
            rcases List.mem_append.mp hx with h1 | h1
            · exact List.mem_cons_of_mem _ (hsub x h1)
            · rcases List.mem_singleton.mp h1 with rfl
              exact List.mem_cons_self _ _
        · intro x hx
          rcases ld x hx with h1 | h1
          · rw [hf0] at h1
            rcases List.mem_append.mp h1 with h2 | h2
            · exact Or.inl h2
            · exact Or.inr (Or.inl (List.mem_singleton.mp h2))
          · exact Or.inr (Or.inr h1)
      rcases henv : cfg.env url with ⟨status, reasonPhrase, doc⟩ | _ | _ | msg
      · by_cases hs : 400 ≤ status ∧ status < 600
        · have hres : get_all_links_fuel cfg (f + 1) st url depth
              = ({ st with
                    visited := url :: st.visited,
                    fetched := st.fetched ++ [url] }, []) := by
            simp [get_all_links_fuel, hg.1, hnotv, henv, hs]
          rw [hres]
          exact hstv _ rfl rfl rfl rfl
        · by_cases hd0 : depth = 0
          · have hres : get_all_links_fuel cfg (f + 1) st url depth
                = crawl_loop cfg (fun st' u => get_all_links_fuel cfg f st' u (depth + 1))
                    url depth doc.anchors
                    { st with
                      visited := url :: st.visited,
                      fetched := st.fetched ++ [url],
                      main_website_goal := extract_main_goal doc,
                      detected_languages :=
                        detect_languages doc.selectQ cfg.base_url cfg.join } := by
              simp [get_all_links_fuel, hg.1, hnotv, henv, hs, hd0]
            rw [hres]
            obtain ⟨c1, c2, c3, _⟩ := hloopcase doc
              ({ st with
                 visited := url :: st.visited,
                 fetched := st.fetched ++ [url],
                 main_website_goal := extract_main_goal doc,
                 detected_languages :=
                   detect_languages doc.selectQ cfg.base_url cfg.join }) rfl rfl
            exact ⟨c1, c2, c3, fun hd => absurd hd (by omega)⟩
          · have hres : get_all_links_fuel cfg (f + 1) st url depth
                = crawl_loop cfg (fun st' u => get_all_links_fuel cfg f st' u (depth + 1))
                    url depth doc.anchors
                    { st with
                      visited := url :: st.visited,
                      fetched := st.fetched ++ [url] } := by
              simp [get_all_links_fuel, hg.1, hnotv, henv, hs, hd0]
            rw [hres]
            obtain ⟨c1, c2, c3, c4a, c4b⟩ := hloopcase doc
              ({ st with
                 visited := url :: st.visited,
                 fetched := st.fetched ++ [url] }) rfl rfl
            exact ⟨c1, c2, c3, fun _ => ⟨c4a, c4b⟩⟩
      · have hres : get_all_links_fuel cfg (f + 1) st url depth
            = ({ st with
                  visited := url :: st.visited,
                  fetched := st.fetched ++ [url] }, []) := by
          simp [get_all_links_fuel, hg.1, hnotv, henv]
        rw [hres]
        exact hstv _ rfl rfl rfl rfl
      · have hres : get_all_links_fuel cfg (f + 1) st url depth
            = ({ st with
                  visited := url :: st.visited,
                  fetched := st.fetched ++ [url] }, []) := by
          simp [get_all_links_fuel, hg.1, hnotv, henv]
        rw [hres]
        exact hstv _ rfl rfl rfl rfl
      · have hres : get_all_links_fuel cfg (f + 1) st url depth
            = ({ st with
                  visited := url :: st.visited,
                  fetched := st.fetched ++ [url] }, []) := by
          simp [get_all_links_fuel, hg.1, hnotv, henv]
        rw [hres]
        exact hstv _ rfl rfl rfl rfl

theorem string_empty_append (s : String) : "" ++ s = s := by
  cases s with
  | mk l => rfl

theorem string_join_nil : String.join [] = "" := rfl

theorem pyStrip_empty : pyStrip "" = "" := rfl

/-- Unfolding of the crawler entry call at depth 0 on a fetchable page: the
guard passes, the page is fetched, goal extraction and language detection run,
and the anchor loop takes over with one unit of fuel consumed. -/
theorem get_all_links_zero_success (cfg : CrawlConfig) (st : CrawlState) (url : String)
    (s : Nat) (r : String) (doc : Doc)
    (henv : cfg.env url = FetchOutcome.success s r doc) (hs : ¬ (400 ≤ s ∧ s < 600))
    (hnv : url ∉ st.visited) :
    get_all_links cfg st url 0
      = crawl_loop cfg (fun st' u => get_all_links_fuel cfg cfg.max_depth st' u 1) url 0
          doc.anchors
          ({ st with
             visited := url :: st.visited,
             fetched := st.fetched ++ [url],
             main_website_goal := extract_main_goal doc,
             detected_languages := detect_languages doc.selectQ cfg.base_url cfg.join }) := by
  unfold get_all_links
  have hfuel : cfg.max_depth + 1 - 0 = cfg.max_depth + 1 := by omega
  rw [hfuel]
  simp [get_all_links_fuel, hnv, henv, hs]

/-- The packaged state facts of `get_fuel_state` for the anchor loop at any
depth, used to lift loop conclusions to crawler calls. -/
theorem crawl_loop_state_fuel (cfg : CrawlConfig) (f : Nat) (url : String) (depth : Nat)
    (anchors : List Anchor) (st0 : CrawlState) :
    (∀ x ∈ st0.visited,
      x ∈ (crawl_loop cfg (fun st' u => get_all_links_fuel cfg f st' u (depth + 1))
            url depth anchors st0).fst.visited)
    ∧ (st0.fetched.Nodup → (∀ x ∈ st0.fetched, x ∈ st0.visited) →
        (crawl_loop cfg (fun st' u => get_all_links_fuel cfg f st' u (depth + 1))
          url depth anchors st0).fst.fetched.Nodup
        ∧ ∀ x ∈ (crawl_loop cfg (fun st' u => get_all_links_fuel cfg f st' u (depth + 1))
              url depth anchors st0).fst.fetched,
            x ∈ (crawl_loop cfg (fun st' u => get_all_links_fuel cfg f st' u (depth + 1))
              url depth anchors st0).fst.visited)
    ∧ (∀ x ∈ (crawl_loop cfg (fun st' u => get_all_links_fuel cfg f st' u (depth + 1))
          url depth anchors st0).fst.fetched,
        x ∈ st0.fetched ∨ netloc x = cfg.base_domain)
    ∧ (crawl_loop cfg (fun st' u => get_all_links_fuel cfg f st' u (depth + 1))
        url depth anchors st0).fst.main_website_goal = st0.main_website_goal
    ∧ (crawl_loop cfg (fun st' u => get_all_links_fuel cfg f st' u (depth + 1))
        url depth anchors st0).fst.detected_languages = st0.detected_languages := by
  exact crawl_loop_state cfg (fun st' u => get_all_links_fuel cfg f st' u (depth + 1)) url depth
    (fun st' u => (get_fuel_state cfg f st' u (depth + 1)).1)
    (fun st' u => (get_fuel_state cfg f st' u (depth + 1)).2.1)
    (fun st' u hu x hx => by
      rcases (get_fuel_state cfg f st' u (depth + 1)).2.2.1 x hx with h1 | h1 | h1
      · exact Or.inl h1
      · rw [h1]; exact Or.inr hu
      · exact Or.inr h1)
    (fun st' u => (get_fuel_state cfg f st' u (depth + 1)).2.2.2 (by omega))
    anchors st0

/-- A depth-0 crawl of a fetchable entry page stores that page's extracted
goal, and the rest of the crawl never changes it. -/
theorem get_all_links_goal_at_zero (cfg : CrawlConfig) (st : CrawlState) (url : String)
    (s : Nat) (r : String) (doc : Doc)
    (henv : cfg.env url = FetchOutcome.success s r doc) (hs : ¬ (400 ≤ s ∧ s < 600))
    (hnv : url ∉ st.visited) :
    (get_all_links cfg st url 0).fst.main_website_goal = extract_main_goal doc := by
  rw [get_all_links_zero_success cfg st url s r doc henv hs hnv]
  exact (crawl_loop_state_fuel cfg cfg.max_depth url 0 doc.anchors
    ({ st with
       visited := url :: st.visited,
       fetched := st.fetched ++ [url],
       main_website_goal := extract_main_goal doc,
       detected_languages := detect_languages doc.selectQ cfg.base_url cfg.join })).2.2.2.1

/-- Every anchor of a page that resolves to an `http(s)` URL contributes its
edge to the loop's result list, whatever its domain. -/
theorem crawl_loop_mem (cfg : CrawlConfig)
    (recur : CrawlState → String → CrawlState × List (String × String))
    (url : String) (depth : Nat) :
    ∀ (anchors : List Anchor) (st : CrawlState) (a : Anchor), a ∈ anchors →
      startsHttp (cfg.join url a.href) = true →
      (pyAnchorTitle a, cfg.join url a.href)
        ∈ (crawl_loop cfg recur url depth anchors st).snd := by
  intro anchors
  induction anchors with
  | nil =>
    intro st a ha
    exact absurd ha (List.not_mem_nil a)
  | cons b rest ih =>
    intro st a ha hhttp
    rcases List.mem_cons.mp ha with rfl | ha'
    · have hstep : crawl_loop cfg recur url depth (a :: rest) st
          = (let r1 := if depth < cfg.max_depth ∧ netloc (cfg.join url a.href) = cfg.base_domain
                       then recur st (cfg.join url a.href)
                       else (st, [])
             let r2 := crawl_loop cfg recur url depth rest r1.fst
             (r2.fst, (pyAnchorTitle a, cfg.join url a.href) :: (r1.snd ++ r2.snd))) := by
        simp [crawl_loop, hhttp]
      rw [hstep]
      exact List.mem_cons_self _ _
    · by_cases hh : startsHttp (cfg.join url b.href) = true
      · have hstep : crawl_loop cfg recur url depth (b :: rest) st
            = (let r1 := if depth < cfg.max_depth ∧ netloc (cfg.join url b.href) = cfg.base_domain
                         then recur st (cfg.join url b.href)
                         else (st, [])
               let r2 := crawl_loop cfg recur url depth rest r1.fst
               (r2.fst, (pyAnchorTitle b, cfg.join url b.href) :: (r1.snd ++ r2.snd))) := by
          simp [crawl_loop, hh]
        rw [hstep]
        exact List.mem_cons_of_mem _ (List.mem_append_right _ (ih _ a ha' hhttp))
      · have hstep : crawl_loop cfg recur url depth (b :: rest) st
            = crawl_loop cfg recur url depth rest st := by
          simp [crawl_loop, hh]
        rw [hstep]
        exact ih st a ha' hhttp

/-- C1: for every `maxDepth ≥ 0` and every page graph, including cyclic ones,
a language variant's crawl (`get_all_links` from the entry URL with an empty
visited set) terminates — the function below is total — and fetches every URL
at most once (the fetch trace has no duplicates); moreover the visited-set and
depth guards run before any network access: a call whose guard fires returns
with the state, including the fetch trace, unchanged. -/
theorem crawl_fetches_each_url_at_most_once (cfg : CrawlConfig) (entry goal0 : String)
    (langs0 : List LanguageVersion) :
    ((get_all_links cfg
        { visited := [], fetched := [], main_website_goal := goal0,
          detected_languages := langs0 } entry 0).fst.fetched).Nodup
    ∧ ∀ (st : CrawlState) (url : String) (depth : Nat),
        depth > cfg.max_depth ∨ url ∈ st.visited →
        get_all_links cfg st url depth = (st, []) := by
  constructor
  · have h := (get_fuel_state cfg (cfg.max_depth + 1 - 0)
      ({ visited := [], fetched := [], main_website_goal := goal0,
         detected_languages := langs0 }) entry 0).2.1 List.nodup_nil
      (fun x hx => absurd hx (List.not_mem_nil x))
    exact h.1
  · intro st url depth hguard
    unfold get_all_links
    cases hf : cfg.max_depth + 1 - depth with
    | zero => rfl
    | succ f => simp [get_all_links_fuel, hguard]

/-- C1 witness: on the concrete cyclic two-page site `cfgCyc`
(`http://s/a` and `http://s/b` link to each other) the crawl terminates with a
duplicate-free fetch trace, and a call whose visited-set check fires returns
unchanged without fetching. -/
theorem crawl_fetches_each_url_at_most_once_witness :
    ((get_all_links cfgCyc
        { visited := [], fetched := [], main_website_goal := "",
          detected_languages := [] } "http://s/a" 0).fst.fetched).Nodup
    ∧ get_all_links cfgCyc
        { visited := ["http://s/a"], fetched := [], main_website_goal := "",
          detected_languages := [] } "http://s/a" 0
      = ({ visited := ["http://s/a"], fetched := [], main_website_goal := "",
           detected_languages := [] }, []) :=
  ⟨(crawl_fetches_each_url_at_most_once cfgCyc "http://s/a" "" []).1,
   (crawl_fetches_each_url_at_most_once cfgCyc "http://s/a" "" []).2
     { visited := ["http://s/a"], fetched := [], main_website_goal := "",
       detected_languages := [] } "http://s/a" 0 (Or.inr (by decide))⟩

/-- C5: in a crawl from an entry URL with an empty visited set, every URL the
crawler fetches is either the entry URL itself (depth 0) or has the session's
base domain as its host — recursive calls never leave the base domain — while
every anchor of the entry page that resolves to an `http(s)` URL is still
recorded as an edge, whatever its domain. -/
theorem crawl_recursion_stays_on_base_domain (cfg : CrawlConfig) (entry goal0 : String)
    (langs0 : List LanguageVersion) :
    (∀ u ∈ (get_all_links cfg
        { visited := [], fetched := [], main_website_goal := goal0,
          detected_languages := langs0 } entry 0).fst.fetched,
        u = entry ∨ netloc u = cfg.base_domain)
    ∧ ∀ (s : Nat) (r : String) (doc : Doc) (a : Anchor),
        cfg.env entry = FetchOutcome.success s r doc → ¬ (400 ≤ s ∧ s < 600) →
        a ∈ doc.anchors → startsHttp (cfg.join entry a.href) = true →
        (pyAnchorTitle a, cfg.join entry a.href)
          ∈ (get_all_links cfg
              { visited := [], fetched := [], main_website_goal := goal0,
                detected_languages := langs0 } entry 0).snd := by
  constructor
  · intro u hu
    rcases (get_fuel_state cfg (cfg.max_depth + 1 - 0)
        ({ visited := [], fetched := [], main_website_goal := goal0,
           detected_languages := langs0 }) entry 0).2.2.1 u hu with h | h | h
    · exact absurd h (List.not_mem_nil u)
    · exact Or.inl h
    · exact Or.inr h
  · intro s r doc a henv hs ha hhttp
    rw [get_all_links_zero_success cfg
      ({ visited := [], fetched := [], main_website_goal := goal0,
         detected_languages := langs0 }) entry s r doc henv hs
      (List.not_mem_nil entry)]
    exact crawl_loop_mem cfg _ entry 0 doc.anchors _ a ha hhttp

/-- C5 witness: on the concrete site `cfgCyc`, the URL `http://s/b` fetched by
the recursive call indeed carries the base domain `s`, and the cross-domain
anchor `http://other/x` of page `http://s/b` would be recorded as an edge while
`http://other/x` is never fetched (it is not in the fetch trace above); here we
instantiate the theorem on the entry page's own anchor. -/
theorem crawl_recursion_stays_on_base_domain_witness :
    ("http://s/b" = "http://s/a" ∨ netloc "http://s/b" = cfgCyc.base_domain)
    ∧ (pyAnchorTitle { href := "http://s/b", text := "B", titleAttr := "" },
        cfgCyc.join "http://s/a" "http://s/b")
        ∈ (get_all_links cfgCyc
            { visited := [], fetched := [], main_website_goal := "",
              detected_languages := [] } "http://s/a" 0).snd :=
  ⟨(crawl_recursion_stays_on_base_domain cfgCyc "http://s/a" "" []).1 "http://s/b" (by decide),
   (crawl_recursion_stays_on_base_domain cfgCyc "http://s/a" "" []).2 200 "OK" docCycA
     { href := "http://s/b", text := "B", titleAttr := "" } rfl (by decide) (by decide) (by decide)⟩

/-- C2 amended: the session goal is not fixed once from the base URL — each
variant's depth-0 crawl of a fetchable entry page recomputes it from that
page, and every classification call during that variant's checking phase uses
this per-variant goal (the goal stored after the variant's crawl). -/
theorem analyze_language_version_goal_per_variant (cfg : CrawlConfig) (st : CrawlState)
    (language : LanguageVersion) (s : Nat) (r : String) (doc : Doc)
    (henv : cfg.env language.url = FetchOutcome.success s r doc)
    (hs : ¬ (400 ≤ s ∧ s < 600)) :
    (analyze_language_version cfg st language).fst.main_website_goal = extract_main_goal doc
    ∧ (analyze_language_version cfg st language).snd
        = (get_all_links cfg { st with visited := [] } language.url 0).snd.filterMap
            (fun e => check_link cfg.env cfg.api (extract_main_goal doc) e.1 e.2 language.code) := by
  have hgoal := get_all_links_goal_at_zero cfg { st with visited := [] } language.url s r doc
    henv hs (List.not_mem_nil language.url)
  refine ⟨hgoal, ?_⟩
  show (get_all_links cfg { st with visited := [] } language.url 0).snd.filterMap
      (fun e => check_link cfg.env cfg.api
        (get_all_links cfg { st with visited := [] } language.url 0).fst.main_website_goal
        e.1 e.2 language.code) = _
  rw [hgoal]

/-- C2 counterexample: on the concrete session `cfgVar` the base homepage's
extracted goal is `alpha`, yet the pipeline classified the `pt` variant's link
with the goal `beta` recomputed from the variant's entry page: the produced
result reports relevance 2 of 10 (page text `beta beta` against goal `beta`),
while checking the same link against the base-URL goal `alpha` reports
relevance 1 of 10 — so not every classification call uses the goal extracted
from the base URL's homepage. -/
theorem session_goal_recomputed_counterexample :
    extract_main_goal docBaseVar = "alpha"
    ∧ (analyze_all_languages cfgVar).snd
        = [("pt", [{ title := "L", url := "http://s/page", status := "FLAGGED",
                     reason := "LOW RELEVANCE: Score 2/10",
                     content_snippet := "Relevance: 2/10, Suspicious: False",
                     language := "pt" }])]
    ∧ check_link cfgVar.env cfgVar.api (extract_main_goal docBaseVar) "L" "http://s/page" "pt"
        = some { title := "L", url := "http://s/page", status := "FLAGGED",
                 reason := "LOW RELEVANCE: Score 1/10",
                 content_snippet := "Relevance: 1/10, Suspicious: False",
                 language := "pt" }
    ∧ ("LOW RELEVANCE: Score 2/10" : String) ≠ "LOW RELEVANCE: Score 1/10" :=
  ⟨by decide, by decide, by decide, by decide⟩

/-- C2 witness: the amended statement instantiated on `cfgVar`'s `pt` variant,
whose entry page `docEntryVar` answers 200. -/
theorem analyze_language_version_goal_per_variant_witness :
    (analyze_language_version cfgVar initialState
        { code := "pt", name := "PT", url := "http://s/?lang=pt" }).fst.main_website_goal
      = extract_main_goal docEntryVar
    ∧ (analyze_language_version cfgVar initialState
        { code := "pt", name := "PT", url := "http://s/?lang=pt" }).snd
        = (get_all_links cfgVar { initialState with visited := [] }
            "http://s/?lang=pt" 0).snd.filterMap
            (fun e => check_link cfgVar.env cfgVar.api (extract_main_goal docEntryVar)
              e.1 e.2 "pt") :=
  analyze_language_version_goal_per_variant cfgVar initialState
    { code := "pt", name := "PT", url := "http://s/?lang=pt" } 200 "OK" docEntryVar
    rfl (by decide)

/-- C3: `check_link` returns no result exactly when the fetch succeeds with
HTTP status below 400 and the page's verdict is neither suspicious nor scored
below 4; and whenever it does return a result for such a reachable page, the
result is FLAGGED, its reason is the issue entries joined by `"; "`, and its
content snippet is the verdict's summary. -/
theorem check_link_none_iff_no_issue (env : String → FetchOutcome)
    (api : String → String → Option Verdict) (goal0 title url lang : String) :
    (check_link env api goal0 title url lang = none ↔
      ∃ s r doc, env url = FetchOutcome.success s r doc ∧ s < 400
        ∧ (page_verdict api goal0 doc).is_suspicious = false
        ∧ 4 ≤ (page_verdict api goal0 doc).relevance_score)
    ∧ ∀ (s : Nat) (r : String) (doc : Doc) (res : LinkResult),
        env url = FetchOutcome.success s r doc → s < 400 →
        check_link env api goal0 title url lang = some res →
        res.status = "FLAGGED"
        ∧ res.reason = pyJoin "; " (link_issues (page_verdict api goal0 doc))
        ∧ res.content_snippet = (page_verdict api goal0 doc).summary := by
  rcases henv : env url with ⟨s0, r0, doc0⟩ | _ | _ | msg
  · have hck : check_link env api goal0 title url lang
        = if 400 ≤ s0 then
            some { title := title, url := url, status := "BROKEN",
                   reason := "HTTP " ++ toString s0 ++ " - " ++ r0, language := lang }
          else if link_issues (page_verdict api goal0 doc0) = [] then none
          else some { title := title, url := url, status := "FLAGGED",
                      reason := pyJoin "; " (link_issues (page_verdict api goal0 doc0)),
                      content_snippet := (page_verdict api goal0 doc0).summary,
                      language := lang } := by
      simp [check_link, henv]
    constructor
    · by_cases hs : 400 ≤ s0
      · rw [hck, if_pos hs]
        constructor
        · intro h
          exact absurd h (by simp)
        · rintro ⟨s, r, doc, he, h4, _⟩
          injection he with e1 e2 e3
          omega
      · rw [hck, if_neg hs]
        by_cases hiss : link_issues (page_verdict api goal0 doc0) = []
        · rw [if_pos hiss]
          have hok := (link_issues_eq_nil_iff (page_verdict api goal0 doc0)).mp hiss
          simp only [true_iff]
          exact ⟨s0, r0, doc0, rfl, by omega, hok.1, hok.2⟩
        · rw [if_neg hiss]
          constructor
          · intro h
            exact absurd h (by simp)
          · rintro ⟨s, r, doc, he, h4, hsusp, hrel⟩
            injection he with e1 e2 e3
            subst e1
            subst e2
            subst e3
            exact absurd ((link_issues_eq_nil_iff _).mpr ⟨hsusp, hrel⟩) hiss
    · intro s r doc res he h4 hres
      injection he with e1 e2 e3
      subst e1
      subst e2
      subst e3
      rw [hck, if_neg (by omega)] at hres
      by_cases hiss : link_issues (page_verdict api goal0 doc0) = []
      · rw [if_pos hiss] at hres
        exact absurd hres (by simp)
      · rw [if_neg hiss] at hres
        injection hres with e
        rw [← e]
        exact ⟨rfl, rfl, rfl⟩
  · have hck : check_link env api goal0 title url lang
        = some { title := title, url := url, status := "TIMEOUT",
                 reason := "Request timeout", content_snippet := "", language := lang } := by
      simp [check_link, henv]
    refine ⟨⟨fun h => absurd (hck ▸ h) (by simp), ?_⟩, ?_⟩
    · rintro ⟨s, r, doc, he, _⟩
      exact absurd he (by simp)
    · intro s r doc res he h4 hres
      exact absurd he (by simp)
  · have hck : check_link env api goal0 title url lang
        = some { title := title, url := url, status := "CONNECTION_ERROR",
                 reason := "Connection failed", content_snippet := "", language := lang } := by
      simp [check_link, henv]
    refine ⟨⟨fun h => absurd (hck ▸ h) (by simp), ?_⟩, ?_⟩
    · rintro ⟨s, r, doc, he, _⟩
      exact absurd he (by simp)
    · intro s r doc res he h4 hres
      exact absurd he (by simp)
  · have hck : check_link env api goal0 title url lang
        = some { title := title, url := url, status := "ERROR",
                 reason := msg, content_snippet := "", language := lang } := by
      simp [check_link, henv]
    refine ⟨⟨fun h => absurd (hck ▸ h) (by simp), ?_⟩, ?_⟩
    · rintro ⟨s, r, doc, he, _⟩
      exact absurd he (by simp)
    · intro s r doc res he h4 hres
      exact absurd he (by simp)

/-- C3 witness: on `envPlain` (every URL answers 200 with text
`nothing here`) and the heuristic analyzer with goal
`quantum computing research`, `check_link` returns a result, and the theorem's
second part yields its FLAGGED shape. -/
theorem check_link_none_iff_no_issue_witness :
    ({ title := "t", url := "u", status := "FLAGGED",
       reason := "LOW RELEVANCE: Score 1/10",
       content_snippet := "Relevance: 1/10, Suspicious: False",
       language := "default" } : LinkResult).status = "FLAGGED"
    ∧ ({ title := "t", url := "u", status := "FLAGGED",
         reason := "LOW RELEVANCE: Score 1/10",
         content_snippet := "Relevance: 1/10, Suspicious: False",
         language := "default" } : LinkResult).reason
        = pyJoin "; " (link_issues
            (page_verdict (fun _ _ => none) "quantum computing research" docPlain))
    ∧ ({ title := "t", url := "u", status := "FLAGGED",
         reason := "LOW RELEVANCE: Score 1/10",
         content_snippet := "Relevance: 1/10, Suspicious: False",
         language := "default" } : LinkResult).content_snippet
        = (page_verdict (fun _ _ => none) "quantum computing research" docPlain).summary :=
  (check_link_none_iff_no_issue envPlain (fun _ _ => none) "quantum computing research"
    "t" "u" "default").2 200 "OK" docPlain
    { title := "t", url := "u", status := "FLAGGED",
      reason := "LOW RELEVANCE: Score 1/10",
      content_snippet := "Relevance: 1/10, Suspicious: False",
      language := "default" }
    rfl (by decide) (by decide)

/-- C4: `check_link` maps a transport timeout to a TIMEOUT result, a
connection failure to CONNECTION_ERROR, any other transport exception to
ERROR carrying its message, and an HTTP status at or above 400 to BROKEN with
the numeric status code embedded in the reason string; each right-hand side is
a fixed record not involving the classifier oracle `api`, so in all four cases
the function returns before any content classification is performed. -/
theorem check_link_transport_and_broken (env : String → FetchOutcome)
    (api : String → String → Option Verdict) (goal0 title url lang : String) :
    (env url = FetchOutcome.timeout →
      check_link env api goal0 title url lang
        = some { title := title, url := url, status := "TIMEOUT",
                 reason := "Request timeout", content_snippet := "", language := lang })
    ∧ (env url = FetchOutcome.connectionError →
      check_link env api goal0 title url lang
        = some { title := title, url := url, status := "CONNECTION_ERROR",
                 reason := "Connection failed", content_snippet := "", language := lang })
    ∧ (∀ msg, env url = FetchOutcome.otherError msg →
      check_link env api goal0 title url lang
        = some { title := title, url := url, status := "ERROR",
                 reason := msg, content_snippet := "", language := lang })
    ∧ ∀ (s : Nat) (r : String) (doc : Doc),
        env url = FetchOutcome.success s r doc → 400 ≤ s →
        check_link env api goal0 title url lang
          = some { title := title, url := url, status := "BROKEN",
                   reason := "HTTP " ++ toString s ++ " - " ++ r,
                   content_snippet := "", language := lang }
        ∧ SubStrP (toString s) ("HTTP " ++ toString s ++ " - " ++ r) := by
  refine ⟨?_, ?_, ?_, ?_⟩
  · intro h
    simp [check_link, h]
  · intro h
    simp [check_link, h]
  · intro msg h
    simp [check_link, h]
  · intro s r doc h hs
    constructor
    · simp [check_link, h, hs]
    · refine ⟨"HTTP ".data, " - ".data ++ r.data, ?_⟩
      simp [string_data_append]

/-- C4 witness: on `env404` (every URL answers 404 Not Found), the theorem's
fourth part yields the BROKEN result with the status code in the reason. -/
theorem check_link_transport_and_broken_witness :
    check_link env404 (fun _ _ => none) "g" "t" "u" "default"
      = some { title := "t", url := "u", status := "BROKEN",
               reason := "HTTP 404 - Not Found", content_snippet := "",
               language := "default" }
    ∧ SubStrP (toString 404) ("HTTP " ++ toString 404 ++ " - " ++ "Not Found") :=
  (check_link_transport_and_broken env404 (fun _ _ => none) "g" "t" "u" "default").2.2.2
    404 "Not Found" docPlain rfl (by decide)

/-- C6 counterexample: when a configured external classification service
responds with a verdict that parses (here `exApiVerdict` with score 0),
`analyze_content` returns it unvalidated — `return eval(result)` performs no
clamping — so the returned relevance score is 0, outside `[1, 10]`. -/
theorem analyze_content_score_unclamped_counterexample :
    (analyze_content (some exApiVerdict) "some page text" "some goal").relevance_score = 0
    ∧ ¬ (1 ≤ (analyze_content (some exApiVerdict) "some page text"
                "some goal").relevance_score
          ∧ (analyze_content (some exApiVerdict) "some page text"
              "some goal").relevance_score ≤ 10) :=
  ⟨rfl, by decide⟩

/-- C6 amended: in the heuristic path — no API key or any delegation failure,
both modelled by the `none` oracle — the relevance score of the verdict
returned by `analyze_content` lies in `[1, 10]` for every page text and every
goal, including empty strings. -/
theorem fallback_relevance_score_in_range (content goal0 : String) :
    1 ≤ (analyze_content none content goal0).relevance_score
    ∧ (analyze_content none content goal0).relevance_score ≤ 10 := by
  show 1 ≤ min 10 (max 1 _) ∧ min 10 (max 1 _) ≤ 10
  constructor
  · exact le_min (by norm_num) (le_max_left 1 _)
  · exact min_le_left _ _

/-- C7: in the heuristic fallback, the verdict's suspicion flag is true
exactly when the lower-cased page text contains some phrase of the fixed scam
keyword list as a substring, and the site goal has no influence on the flag. -/
theorem fallback_suspicious_iff_scam_keyword (content goal0 goal1 : String) :
    ((fallback_analysis content goal0).is_suspicious = true ↔
      ∃ k ∈ scam_keywords, SubStrP k (pyLower content))
    ∧ (fallback_analysis content goal0).is_suspicious
        = (fallback_analysis content goal1).is_suspicious := by
  constructor
  · show (scam_keywords.any fun keyword => strContains (pyLower content) keyword) = true ↔ _
    rw [List.any_eq_true]
    constructor
    · rintro ⟨k, hk, hc⟩
      exact ⟨k, hk, (strContains_iff _ _).mp hc⟩
    · rintro ⟨k, hk, hc⟩
      exact ⟨k, hk, (strContains_iff _ _).mpr hc⟩
  · rfl

/-- C8: language detection never returns an empty sequence, and when no
selector's anchors yield any language and the base URL's query string binds no
`lang` parameter, it returns exactly the single default variant with code
`default`, name `Default`, and the base URL as entry URL. -/
theorem if_default_nonempty (L : List LanguageVersion) (base_url : String) :
    (if L = [] then [{ code := "default", name := "Default", url := base_url }] else L)
      ≠ [] := by
  split
  · simp
  · assumption

theorem detect_languages_nonempty_and_default (selectQ : String → List Anchor)
    (base_url : String) (join : String → String → String) :
    detect_languages selectQ base_url join ≠ []
    ∧ ((∀ sel ∈ language_selectors,
          (selectQ sel).foldl (langFromAnchor base_url join) [] = []) →
        parse_qs_first (urlQuery base_url) "lang" = none →
        detect_languages selectQ base_url join
          = [{ code := "default", name := "Default", url := base_url }]) := by
  constructor
  · exact if_default_nonempty _ base_url
  · intro hsel hqs
    have hfrom :
        (match (language_selectors.map selectQ).find? (fun links => links ≠ []) with
         | some lang_links => lang_links.foldl (langFromAnchor base_url join) []
         | none => ([] : List LanguageVersion)) = [] := by
      cases hf : (language_selectors.map selectQ).find? (fun links => links ≠ []) with
      | none => rfl
      | some lang_links =>
        have hmem := List.mem_of_find?_eq_some hf
        rcases List.mem_map.mp hmem with ⟨sel, hsel', rfl⟩
        exact hsel sel hsel'
    simp only [detect_languages]
    rw [hfrom, hqs]
    simp

/-- C8 witness: a homepage whose selector queries all come back empty and a
base URL without a query string produce exactly the default variant. -/
theorem detect_languages_nonempty_and_default_witness :
    detect_languages (fun _ => []) "http://e/" (fun _ href => href) ≠ []
    ∧ detect_languages (fun _ => []) "http://e/" (fun _ href => href)
        = [{ code := "default", name := "Default", url := "http://e/" }] :=
  ⟨(detect_languages_nonempty_and_default (fun _ => []) "http://e/" (fun _ href => href)).1,
   (detect_languages_nonempty_and_default (fun _ => []) "http://e/" (fun _ href => href)).2
     (fun sel _ => rfl) (by decide)⟩

/-- C9 counterexample: `exDocMeta` carries a `<meta name="description">`
element with non-empty content, yet `extract_main_goal` ignores it — the
`find_all` filter also requires a `class` matching about/mission/purpose, and
this element has no `class` attribute — and returns the title-plus-paragraph
fallback instead of the meta description's content. -/
theorem extract_main_goal_ignores_plain_meta_counterexample :
    exMetaDesc ∈ exDocMeta.elements
    ∧ exMetaDesc.tag = "meta"
    ∧ exMetaDesc.nameAttr = some "description"
    ∧ exMetaDesc.contentAttr = some "All about cooking recipes"
    ∧ extract_main_goal exDocMeta = "Cooking Site Welcome to our kitchen"
    ∧ ("Cooking Site Welcome to our kitchen" : String) ≠ "All about cooking recipes" :=
  ⟨by decide, rfl, rfl, rfl, by decide, by decide⟩

/-- C9 amended: the extractor's result is always at most 500 characters, and a
meta description (or any heading/paragraph) contributes only when its element
also carries a `class` matching about/mission/purpose — whenever no element of
the page has such a class, the extractor returns the page title text
concatenated with the first paragraph's text, stripped and truncated to 500
characters. -/
theorem extract_main_goal_amended (d : Doc) :
    (extract_main_goal d).length ≤ 500
    ∧ ((∀ e ∈ d.elements, goalClassMatch e = false) →
        extract_main_goal d = truncate500 (pyStrip (fallbackGoalText d))) := by
  constructor
  · exact truncate500_length _
  · intro h
    have hfil : d.elements.filter goalElementMatch = [] := by
      rw [List.filter_eq_nil_iff]
      intro e he
      simp [goalElementMatch, h e he]
    simp only [extract_main_goal, hfil, List.map_nil, string_join_nil]
    rw [if_pos pyStrip_empty, string_empty_append]
    rfl

/-- C9 amended witness: instantiated on `exDocMeta`, whose elements carry no
matching class. -/
theorem extract_main_goal_amended_witness :
    (extract_main_goal exDocMeta).length ≤ 500
    ∧ extract_main_goal exDocMeta = truncate500 (pyStrip (fallbackGoalText exDocMeta)) :=
  ⟨(extract_main_goal_amended exDocMeta).1,
   (extract_main_goal_amended exDocMeta).2 (by decide)⟩

/-- C10: with an empty stored site goal, the heuristic fallback scores every
page text exactly 1 (no goal tokens, clamped up to 1), so in the heuristic
path every link whose fetch succeeds below status 400 yields a FLAGGED result
whose issues contain the low-relevance entry, whatever the page contains. -/
theorem empty_goal_flags_every_reachable_link (content : String) :
    (fallback_analysis content "").relevance_score = 1
    ∧ ∀ (env : String → FetchOutcome) (title url lang : String) (s : Nat) (r : String)
        (doc : Doc),
        env url = FetchOutcome.success s r doc → s < 400 →
        check_link env (fun _ _ => none) "" title url lang
          = some { title := title, url := url, status := "FLAGGED",
                   reason := pyJoin "; " (link_issues (fallback_analysis doc.text "")),
                   content_snippet := (fallback_analysis doc.text "").summary,
                   language := lang }
        ∧ "LOW RELEVANCE: Score 1/10" ∈ link_issues (fallback_analysis doc.text "") := by
  constructor
  · rfl
  · intro env title url lang s r doc henv hs
    have hscore : (fallback_analysis doc.text "").relevance_score = 1 := rfl
    have hmem : "LOW RELEVANCE: Score 1/10"
        ∈ link_issues (fallback_analysis doc.text "") := by
      unfold link_issues
      rw [hscore]
      have h14 : (1 : Nat) < 4 := by norm_num
      rw [if_pos h14]
      exact List.mem_append_right _ (by decide)
    have hne : link_issues (fallback_analysis doc.text "") ≠ [] := by
      intro hnil
      rw [hnil] at hmem
      exact absurd hmem (List.not_mem_nil _)
    have hck : check_link env (fun _ _ => none) "" title url lang
        = if 400 ≤ s then
            some { title := title, url := url, status := "BROKEN",
                   reason := "HTTP " ++ toString s ++ " - " ++ r, language := lang }
          else if link_issues (fallback_analysis doc.text "") = [] then none
          else some { title := title, url := url, status := "FLAGGED",
                      reason := pyJoin "; " (link_issues (fallback_analysis doc.text "")),
                      content_snippet := (fallback_analysis doc.text "").summary,
                      language := lang } := by
      simp [check_link, henv, page_verdict, analyze_content]
    refine ⟨?_, hmem⟩
    rw [hck, if_neg (by omega), if_neg hne]

/-- C10 witness: on `envPlain` with the empty goal, the checked link comes
back FLAGGED with the low-relevance issue. -/
theorem empty_goal_flags_every_reachable_link_witness :
    check_link envPlain (fun _ _ => none) "" "t" "u" "default"
      = some { title := "t", url := "u", status := "FLAGGED",
               reason := pyJoin "; " (link_issues (fallback_analysis docPlain.text "")),
               content_snippet := (fallback_analysis docPlain.text "").summary,
               language := "default" }
    ∧ "LOW RELEVANCE: Score 1/10" ∈ link_issues (fallback_analysis docPlain.text "") :=
  (empty_goal_flags_every_reachable_link "").2 envPlain "t" "u" "default" 200 "OK" docPlain
    rfl (by decide)

end Checklink
